import Mathlib

/-!
Verification of the naming-constraint and rename-resolution engine of
`src/renamarion/cli.py`.

The Python source is shallowly embedded as executable Lean definitions:

* Python strings become `List Char` (`Name`); Python `pathlib.Path` values
  become lists of path components (`PyPath`), with `.name`, `.parent` and `/`
  modelled by `pathName`, `pathParent` and `pathJoin` (matching `pathlib`
  semantics for slash-free components: joining the empty string leaves the
  path unchanged).
* The keys of the `forbidden_mapping` dict are either literal strings or the
  single `Termination("termination")` matcher instance; they become `RKey`.
  The dict's values (replacement strings, and the `Termination` class stored
  under the matcher key) become `RVal`.  The dict itself, which Python
  iterates in insertion order, becomes an association list `MatchMapping`.
* The `problems` value of a `FileSystemItem` is a Python `set`; it is
  embedded as the list of its elements in some iteration order.  The order
  produced by classification (`is_item_invalid`) is the mapping's key order;
  Python does not fix the iteration order of the set itself, which is why
  resolution functions below take the order as part of the data.
* Fallible Python code (dict lookups that may raise `KeyError`/`TypeError`,
  the `ValueError`/`TypeError` raised during replacement validation) is
  embedded with `Option`/`Except`.
-/

/-- A Python string, as its list of characters. -/
abbrev Name := List Char

/-- Characters of a Lean string literal, used to write concrete Python strings. -/
def strOf (s : String) : Name := s.data

/-- The `Literal["file", "directory"]` type of `FileSystemItem.type`. -/
inductive ItemType where
  | file
  | directory
deriving DecidableEq

/-- A key of the `forbidden_mapping` dict: either a literal string key, or the
single `Termination("termination")` `MatcherAction` instance. -/
inductive RKey where
  | lit : Name → RKey
  | term : RKey
deriving DecidableEq

/-- A value of the `forbidden_mapping` dict: either a replacement string, or
the `Termination` class itself (stored under the `Termination` instance key;
never read by name resolution, which calls the matcher's own `replace`). -/
inductive RVal where
  | str : Name → RVal
  | termClass : RVal
deriving DecidableEq

/-- The `MatchMapping` type alias: the `forbidden_characters_mapping` dict,
embedded as an association list in the dict's insertion order. -/
abbrev MatchMapping := List (RKey × RVal)

/-- Python dict lookup `mapping[k]` as an `Option` (a missing key raises
`KeyError` in Python). -/
def mappingLookup (mapping : MatchMapping) (k : RKey) : Option RVal :=
  (mapping.find? (fun e => e.1 == k)).map Prod.snd

/-- Python's substring test `p in s` on strings. -/
def isSubstr (p s : Name) : Bool :=
  s.tails.any (fun t => p.isPrefixOf t)

/-- Scanning loop of `str.replace`: walks the string left to right; on a
match of `old` it emits `new` and skips the remaining matched characters
(the `skip` counter), otherwise it keeps the current character. -/
def pyReplaceGo (old new : Name) : Nat → Name → Name
  | _, [] => []
  | Nat.succ k, _ :: xs => pyReplaceGo old new k xs
  | 0, x :: xs =>
    if old.isPrefixOf (x :: xs) then
      new ++ pyReplaceGo old new (old.length - 1) xs
    else
      x :: pyReplaceGo old new 0 xs

/-- Python's `str.replace(old, new)`, embedded for the non-empty `old`
patterns that occur as rule keys (Python's behaviour for `old == ""`
interleaves `new` everywhere and never arises here): replaces each
non-overlapping occurrence of `old`, scanning left to right. -/
def pyReplace (old new s : Name) : Name :=
  match old with
  | [] => s
  | _ :: _ => pyReplaceGo old new 0 s

/-- Python's `str.rstrip(c)` for a single strip character `c`. -/
def rstrip1 (c : Char) (s : Name) : Name :=
  (s.reverse.dropWhile (fun x => x == c)).reverse

/-- The trailing characters checked by `Termination.matches`:
`(",", " ", ".", "\uf022")`. -/
def terminationChars : List Char := [',', ' ', '.', '\uf022']

/-- The method `Termination.matches`: `item_name.endswith((",", " ", ".", "\uf022"))`.
All alternatives are single characters, so this is a test on the last
character; Python's `endswith` is false on the empty string. -/
def Termination_matches (item_name : Name) : Bool :=
  match item_name.getLast? with
  | some c => terminationChars.contains c
  | none => false

/-- The method `Termination.replace`:
`item_name.rstrip(" ").rstrip(",").rstrip(".").rstrip("\uf022").rstrip(" ")`. -/
def Termination_replace (item_name : Name) : Name :=
  rstrip1 ' ' (rstrip1 '\uf022' (rstrip1 '.' (rstrip1 ',' (rstrip1 ' ' item_name))))

/-- The default `forbidden_mapping` dict built by `get_forbidden_characters`,
in insertion order. -/
def forbidden_mapping : MatchMapping :=
  [ (RKey.lit ['<'], RVal.str ['(']),
    (RKey.lit ['>'], RVal.str [')']),
    (RKey.lit [':'], RVal.str ['-']),
    (RKey.lit ['\"'], RVal.str ['-']),
    (RKey.lit ['|'], RVal.str ['_']),
    (RKey.lit ['?'], RVal.str ['.']),
    (RKey.lit ['*'], RVal.str ['x']),
    (RKey.lit ['\uf022'], RVal.str ['-']),
    (RKey.lit ['\\'], RVal.str ['_']),
    (RKey.lit ['/'], RVal.str ['_']),
    (RKey.lit ['\r'], RVal.str []),
    (RKey.term, RVal.termClass) ]

/-- The per-key match test of `is_item_invalid`:
`(isinstance(char, str) and char in item_name) or
 (isinstance(char, MatcherAction) and char.matches(item_name))`. -/
def ruleMatches (k : RKey) (item_name : Name) : Bool :=
  match k with
  | RKey.lit s => isSubstr s item_name
  | RKey.term => Termination_matches item_name

/-- The function `is_item_invalid`: collects the set of matching keys (here,
as the list of those keys in the mapping's key order, which is the insertion
order in which Python builds the set) and returns
`(True, problems)` when non-empty, `(False, set())` otherwise. -/
def is_item_invalid (item_name : Name) (mapping : MatchMapping) :
    Bool × List RKey :=
  let problems := (mapping.map Prod.fst).filter (fun k => ruleMatches k item_name)
  if problems.length ≠ 0 then (true, problems) else (false, [])

/-- The dataclass `FileSystemItem`.  `problems` is a Python `set`; it is
embedded as the list of its elements in the set's iteration order, which
Python does not pin down (classification inserts them in mapping key order,
but iteration order of a `set` of strings varies with hash randomisation). -/
structure FileSystemItem where
  type : ItemType
  invalid : Bool
  path : List Name
  problems : List RKey
deriving DecidableEq

/-- A Python `pathlib` path, as its list of components. -/
abbrev PyPath := List Name

/-- Python's `Path.name`: the last component (the empty string for a bare root). -/
def pathName (p : PyPath) : Name := p.getLast?.getD []

/-- Python's `Path.parent`: the path without its last component. -/
def pathParent (p : PyPath) : PyPath := p.dropLast

/-- Python's `Path.__truediv__` (`p / n`) for a slash-free component `n`:
appending the empty string leaves the path unchanged (`Path("a") / "" == Path("a")`). -/
def pathJoin (p : PyPath) (n : Name) : PyPath :=
  if n.isEmpty then p else p ++ [n]

/-- The function `parse_item`: classifies `item_name` and appends the
resulting `FileSystemItem` to the scanned data (`FileSystemData.add`). -/
def parse_item (root : PyPath) (item_name : Name) (item_type : ItemType)
    (data : List FileSystemItem) (mapping : MatchMapping) :
    List FileSystemItem :=
  let r := is_item_invalid item_name mapping
  data ++ [{ type := item_type, invalid := r.1,
             path := pathJoin root item_name, problems := r.2 }]

/-- One loop iteration of `get_item_renamed_path`, at the level of the name:
for a literal problem, `str(new_path.name).replace(problem, mapping[problem])`
(`none` models the `KeyError`/`TypeError` Python would raise if the key were
absent or its value not a string); for the matcher problem,
`problem.replace(new_path.name)`. -/
def nameTransform (mapping : MatchMapping) (k : RKey) (n : Name) : Option Name :=
  match k with
  | RKey.lit key =>
    match mappingLookup mapping (RKey.lit key) with
    | some (RVal.str rep) => some (pyReplace key rep n)
    | _ => none
  | RKey.term => some (Termination_replace n)

/-- One loop iteration of `get_item_renamed_path` at the level of the path:
`new_path = new_path.parent / <transformed name>`. -/
def applyProblem (mapping : MatchMapping) (k : RKey) (p : PyPath) : Option PyPath :=
  (nameTransform mapping k (pathName p)).map (fun m => pathJoin (pathParent p) m)

/-- The `for problem in item.problems` loop of `get_item_renamed_path`,
taking the problems in the given iteration order. -/
def rename_fold (mapping : MatchMapping) (problems : List RKey) (p : PyPath) :
    Option PyPath :=
  match problems with
  | [] => some p
  | k :: ks =>
    match applyProblem mapping k p with
    | some q => rename_fold mapping ks q
    | none => none

/-- The function `get_item_renamed_path`: returns the original path unchanged when
`item.invalid` is false, otherwise folds every violated rule's transform over
the path in the iteration order recorded in `item.problems`. -/
def get_item_renamed_path (item : FileSystemItem) (mapping : MatchMapping) :
    Option PyPath :=
  if !item.invalid then some item.path
  else rename_fold mapping item.problems item.path

/-- Builds the `FileSystemItem` the scan records for a path: its last
component is classified by `is_item_invalid` (as `parse_item` does), with the
problems listed in mapping key order. -/
def classify_entry (t : ItemType) (p : PyPath) (mapping : MatchMapping) :
    FileSystemItem :=
  let r := is_item_invalid (pathName p) mapping
  { type := t, invalid := r.1, path := p, problems := r.2 }

/-- Classify-then-rename: the composite `resolve` operation of the spec,
classifying a path's name and computing its renamed path. -/
def resolve (t : ItemType) (p : PyPath) (mapping : MatchMapping) : Option PyPath :=
  get_item_renamed_path (classify_entry t p mapping) mapping

/-- The successive names produced by the resolution loop, folded at the level
of names only. -/
def resolveNameSteps (mapping : MatchMapping) (ks : List RKey) (n : Name) :
    Option Name :=
  match ks with
  | [] => some n
  | k :: ks' =>
    match nameTransform mapping k n with
    | some m => resolveNameSteps mapping ks' m
    | none => none

/-- Checks that every name passed through the resolution loop (the initial
name and each transform's output) is non-empty and that every transform
succeeds. -/
def stepsAllNonempty (mapping : MatchMapping) (ks : List RKey) (n : Name) : Bool :=
  match ks with
  | [] => !n.isEmpty
  | k :: ks' =>
    !n.isEmpty &&
      (match nameTransform mapping k n with
       | some m => stepsAllNonempty mapping ks' m
       | none => false)

/-- The property `FileSystemData.files`: scanned items whose type is `"file"`. -/
def files (data : List FileSystemItem) : List FileSystemItem :=
  data.filter (fun item => item.type == ItemType.file)

/-- The property `FileSystemData.directories`. -/
def directories (data : List FileSystemItem) : List FileSystemItem :=
  data.filter (fun item => item.type == ItemType.directory)

/-- The property `FileSystemData.problematic_files`. -/
def problematic_files (data : List FileSystemItem) : List FileSystemItem :=
  (files data).filter (fun item => item.invalid)

/-- The property `FileSystemData.problematic_directories`. -/
def problematic_directories (data : List FileSystemItem) : List FileSystemItem :=
  (directories data).filter (fun item => item.invalid)

/-- The grouping comprehension shared by `problematic_files_types` and
`problematic_directories_types`.  `MultiProblems` compares two problem sets
through the string of the set (`__eq__` compares `hash(str(self))`); for the
problem sets produced by `is_item_invalid` — whose elements are inserted, and
therefore enumerated, in the mapping's key order — equal sets print equally,
so the `MultiProblems` key is embedded as the order-canonical problems list
itself, compared with `==`.  `dedup` plays the role of the `set(...)` of
`MultiProblems` keys. -/
def problems_types (items : List FileSystemItem) :
    List (List RKey × List FileSystemItem) :=
  let unique_problems := (items.map (fun item => item.problems)).dedup
  unique_problems.map
    (fun problem_key =>
      (problem_key, items.filter (fun item => item.problems == problem_key)))

/-- The property `FileSystemData.problematic_files_types`. -/
def problematic_files_types (data : List FileSystemItem) :
    List (List RKey × List FileSystemItem) :=
  problems_types (problematic_files data)

/-- The property `FileSystemData.problematic_directories_types`. -/
def problematic_directories_types (data : List FileSystemItem) :
    List (List RKey × List FileSystemItem) :=
  problems_types (problematic_directories data)

/-- The Python exceptions raised inside `char_validation`: the explicit
`ValueError("Forbidden character")`, and the `TypeError` raised by
`c in char` when `c` is not a string. -/
inductive PyError where
  | valueError
  | typeError
deriving DecidableEq

/-- One element `c in char` of the comprehension in `char_validation`.  When
`c` is the `Termination` matcher instance, `str.__contains__` raises
`TypeError` (the commented-out `MatcherAction.__contains__` would only affect
`char in c`, not `c in char`). -/
def keyInStr (k : RKey) (char : Name) : Except PyError Bool :=
  match k with
  | RKey.lit c => Except.ok (isSubstr c char)
  | RKey.term => Except.error PyError.typeError

/-- The list comprehension `[c in char for c in forbidden_mapping.keys()]`:
elements are evaluated in key order, all of them before `any` runs, and the
first exception propagates. -/
def containsChecks (keys : List RKey) (char : Name) : Except PyError (List Bool) :=
  match keys with
  | [] => Except.ok []
  | k :: ks =>
    match keyInStr k char with
    | Except.error e => Except.error e
    | Except.ok b =>
      match containsChecks ks char with
      | Except.error e => Except.error e
      | Except.ok bs => Except.ok (b :: bs)

/-- The inner function `char_validation` of `get_forbidden_characters`:
`if any([c in char for c in forbidden_mapping.keys()]): raise ValueError(...)`
then `return str(char)`. -/
def char_validation (mapping : MatchMapping) (char : Name) : Except PyError Name :=
  match containsChecks (mapping.map Prod.fst) char with
  | Except.error e => Except.error e
  | Except.ok bs =>
    if bs.any (fun b => b) then Except.error PyError.valueError
    else Except.ok char

/-- A concrete problematic file entry (name `"a<>"`), as the scan records it. -/
def groupItemA : FileSystemItem :=
  { type := ItemType.file, invalid := true, path := [strOf "a<>"],
    problems := [RKey.lit ['<'], RKey.lit ['>']] }

/-- A concrete problematic file entry (name `"<b>"`) violating the same rule
set as `groupItemA`. -/
def groupItemB : FileSystemItem :=
  { type := ItemType.file, invalid := true, path := [strOf "<b>"],
    problems := [RKey.lit ['<'], RKey.lit ['>']] }

/-! ### Helper lemmas -/

/-- Unfolding `isSubstr` over a cons cell. -/
theorem isSubstr_cons (p : Name) (x : Char) (xs : Name) :
    isSubstr p (x :: xs) = (p.isPrefixOf (x :: xs) || isSubstr p xs) := by
  simp [isSubstr, List.tails_cons]

/-- A single-character pattern is a substring exactly when the character occurs. -/
theorem isSubstr_single_iff (c : Char) (s : Name) :
    isSubstr [c] s = true ↔ c ∈ s := by
  induction s with
  | nil => simp [isSubstr, List.isPrefixOf]
  | cons x xs ih =>
    rw [isSubstr_cons]
    simp [List.isPrefixOf, ih]

/-- Unfolding `pyReplace` for a single-character pattern. -/
theorem pyReplace_single_cons (c : Char) (rep : Name) (x : Char) (xs : Name) :
    pyReplace [c] rep (x :: xs) =
      if c = x then rep ++ pyReplace [c] rep xs else x :: pyReplace [c] rep xs := by
  simp [pyReplace, pyReplaceGo, List.isPrefixOf]

/-- Replacing every occurrence of `c` by a string not containing `c` leaves no
occurrence of `c`. -/
theorem not_mem_pyReplace_single (c : Char) (rep : Name) (hc : c ∉ rep) :
    ∀ s : Name, c ∉ pyReplace [c] rep s := by
  intro s
  induction s with
  | nil => simp [pyReplace, pyReplaceGo]
  | cons x xs ih =>
    rw [pyReplace_single_cons]
    by_cases h : c = x
    · subst h
      rw [if_pos rfl]
      intro hmem
      rcases List.mem_append.mp hmem with h1 | h1
      · exact hc h1
      · exact ih h1
    · simp [h, List.mem_cons]
      exact ih

/-- Single-character literal replacement fully removes the character when the
replacement string avoids it. -/
theorem isSubstr_pyReplace_single_false (c : Char) (rep : Name) (hc : c ∉ rep)
    (s : Name) : isSubstr [c] (pyReplace [c] rep s) = false := by
  rw [← Bool.not_eq_true, isSubstr_single_iff]
  exact not_mem_pyReplace_single c rep hc s

/-- The problems component of `is_item_invalid` is always the list of
matching keys, in mapping key order. -/
theorem is_item_invalid_snd (n : Name) (m : MatchMapping) :
    (is_item_invalid n m).2
      = (m.map Prod.fst).filter (fun k => ruleMatches k n) := by
  unfold is_item_invalid
  by_cases h : ((m.map Prod.fst).filter (fun k => ruleMatches k n)).length ≠ 0
  · simp [h]
  · rw [not_not] at h
    have hnil := List.length_eq_zero.mp h
    simp [hnil]

/-- The invalid flag of `is_item_invalid` is the non-emptiness of the
matching-key list. -/
theorem is_item_invalid_fst (n : Name) (m : MatchMapping) :
    (is_item_invalid n m).1 = true
      ↔ ((m.map Prod.fst).filter (fun k => ruleMatches k n)) ≠ [] := by
  constructor
  · intro h1 hnil
    unfold is_item_invalid at h1
    simp [hnil] at h1
  · intro hne
    unfold is_item_invalid
    have hlen : ((m.map Prod.fst).filter (fun k => ruleMatches k n)).length ≠ 0 := by
      intro h0
      exact hne (List.length_eq_zero.mp h0)
    simp [hlen]

/-- The name of a path extended by one component is that component. -/
theorem pathName_snoc (p : PyPath) (n : Name) : pathName (p ++ [n]) = n := by
  simp [pathName, List.getLast?_concat]

/-- The parent of a path extended by one component is the original path. -/
theorem pathParent_snoc (p : PyPath) (n : Name) : pathParent (p ++ [n]) = p := by
  simp [pathParent, List.dropLast_concat]

/-- A non-empty path is its parent extended by its name. -/
theorem path_decomp (p : PyPath) (hp : p ≠ []) :
    pathParent p ++ [pathName p] = p := by
  have h := List.getLast?_eq_getLast_of_ne_nil hp
  simp [pathParent, pathName, h, List.dropLast_append_getLast hp]

/-- The list element named by `getLast?` is a member. -/
theorem mem_of_getLast?_eq (l : List α) (a : α) (h : l.getLast? = some a) :
    a ∈ l := by
  obtain ⟨hne, rfl⟩ := List.mem_getLast?_eq_getLast (by rw [h]; rfl)
  exact List.getLast_mem hne

/-- A name accepted by `stepsAllNonempty` is itself non-empty. -/
theorem stepsAllNonempty_ne (m : MatchMapping) (ks : List RKey) (n : Name)
    (h : stepsAllNonempty m ks n = true) : n ≠ [] := by
  cases ks with
  | nil =>
    simp only [stepsAllNonempty, Bool.not_eq_true'] at h
    exact fun hn => by simp [hn] at h
  | cons k ks =>
    simp only [stepsAllNonempty, Bool.and_eq_true, Bool.not_eq_true'] at h
    exact fun hn => by simp [hn] at h

/-- Frame lemma for the resolution loop: as long as every intermediate name
is non-empty, the loop rewrites only the last component, and the path-level
fold computes exactly the name-level fold under the original parent. -/
theorem rename_fold_frame (m : MatchMapping) (ks : List RKey) (p : PyPath)
    (h : stepsAllNonempty m ks (pathName p) = true) :
    ∃ final, resolveNameSteps m ks (pathName p) = some final ∧
      rename_fold m ks p = some (pathParent p ++ [final]) := by
  induction ks generalizing p with
  | nil =>
    refine ⟨pathName p, rfl, ?_⟩
    have hne : pathName p ≠ [] := stepsAllNonempty_ne m [] _ h
    have hp : p ≠ [] := by
      intro hh
      exact hne (by simp [hh, pathName])
    simp only [rename_fold]
    rw [path_decomp p hp]
  | cons k ks ih =>
    simp only [stepsAllNonempty, Bool.and_eq_true] at h
    obtain ⟨hne, hrest⟩ := h
    cases htr : nameTransform m k (pathName p) with
    | none => rw [htr] at hrest; simp at hrest
    | some nm =>
      rw [htr] at hrest
      have hnm : nm ≠ [] := stepsAllNonempty_ne m ks nm hrest
      have happ : applyProblem m k p = some (pathParent p ++ [nm]) := by
        simp [applyProblem, htr, pathJoin, hnm]
      have hname : pathName (pathParent p ++ [nm]) = nm := pathName_snoc _ _
      obtain ⟨final, h1, h2⟩ := ih (pathParent p ++ [nm]) (by rw [hname]; exact hrest)
      refine ⟨final, ?_, ?_⟩
      · simp only [resolveNameSteps, htr]
        rw [hname] at h1
        exact h1
      · simp only [rename_fold, happ]
        rw [h2, pathParent_snoc]

/-- Two entries fall inside one group of the grouping comprehension exactly
when their recorded problems lists are equal. -/
theorem problems_types_same_group (items : List FileSystemItem)
    (e₁ e₂ : FileSystemItem) (he₁ : e₁ ∈ items) (he₂ : e₂ ∈ items) :
    (∃ g ∈ problems_types items, e₁ ∈ g.2 ∧ e₂ ∈ g.2)
      ↔ e₁.problems = e₂.problems := by
  constructor
  · rintro ⟨g, hg, m₁, m₂⟩
    obtain ⟨key, _, rfl⟩ := List.mem_map.mp hg
    have k₁ := (List.mem_filter.mp m₁).2
    have k₂ := (List.mem_filter.mp m₂).2
    simp only [beq_iff_eq] at k₁ k₂
    rw [k₁, k₂]
  · intro heq
    refine ⟨(e₁.problems, items.filter (fun item => item.problems == e₁.problems)),
      ?_, ?_, ?_⟩
    · apply List.mem_map.mpr
      refine ⟨e₁.problems, ?_, rfl⟩
      exact List.mem_dedup.mpr (List.mem_map.mpr ⟨e₁, he₁, rfl⟩)
    · exact List.mem_filter.mpr ⟨he₁, by simp⟩
    · exact List.mem_filter.mpr ⟨he₂, by simp [heq]⟩

/-- Classification-produced problems lists are canonical: membership-equal
lists are equal, both being filters of the mapping's key list. -/
theorem classification_problems_ext (m : MatchMapping) (n₁ n₂ : Name)
    (h : ∀ k, k ∈ (is_item_invalid n₁ m).2 ↔ k ∈ (is_item_invalid n₂ m).2) :
    (is_item_invalid n₁ m).2 = (is_item_invalid n₂ m).2 := by
  simp only [is_item_invalid_snd] at h ⊢
  apply List.filter_congr
  intro k hk
  have hk' := h k
  rw [List.mem_filter, List.mem_filter] at hk'
  cases ht₁ : ruleMatches k n₁ <;> cases ht₂ : ruleMatches k n₂ <;> simp_all

/-! ### Claims -/

/-- C1 (counterexample): resolution is not a fixed point for every entry.
Under the default rules the name `"a?"` resolves to `"a."` (the `"?"` rule
substitutes `"."`), but `"a."` re-classifies as invalid (trailing `"."`
matches the termination rule) and resolves further, to `"a"`. -/
theorem C1_counterexample :
    resolve ItemType.file [strOf "d", strOf "a?"] forbidden_mapping
        = some [strOf "d", strOf "a."] ∧
    (is_item_invalid (strOf "a.") forbidden_mapping).1 = true ∧
    resolve ItemType.file [strOf "d", strOf "a."] forbidden_mapping
        ≠ some [strOf "d", strOf "a."] := by
  decide

/-- C1 (amended): for every entry whose resolved name re-classifies with
`invalid == false`, resolving the resolved path returns it unchanged, so
`resolve` is a fixed point exactly on those outputs. -/
theorem C1_fixed_point_on_valid_output (t : ItemType) (p p' : PyPath)
    (h : resolve t p forbidden_mapping = some p')
    (hvalid : (is_item_invalid (pathName p') forbidden_mapping).1 = false) :
    resolve t p' forbidden_mapping = some p' := by
  rw [resolve, get_item_renamed_path]
  simp [classify_entry, hvalid]

/-- C1 (witness): `"a<"` resolves to `"a("`, which is valid, and resolving
`"a("` again leaves it unchanged. -/
theorem C1_fixed_point_on_valid_output_witness :
    resolve ItemType.file [strOf "d", strOf "a("] forbidden_mapping
      = some [strOf "d", strOf "a("] :=
  C1_fixed_point_on_valid_output ItemType.file [strOf "d", strOf "a<"]
    [strOf "d", strOf "a("] (by decide) (by decide)

/-- C2 (counterexample): one application of the termination rule's transform
does not always resolve its violation.  `"a,."` matches (trailing `","`), but
`Termination.replace` strips in the fixed order `" " "," "." "\uf022" " "`, so the
`","` uncovered by stripping the final `"."` survives: the result `"a,"`
still matches the rule. -/
theorem C2_counterexample :
    ruleMatches RKey.term (strOf "a,.") = true ∧
    nameTransform forbidden_mapping RKey.term (strOf "a,.") = some (strOf "a,") ∧
    ruleMatches RKey.term (strOf "a,") = true := by
  decide

/-- C2 (amended): every literal-character rule of the default rule set is
idempotent — after one replacement the rule no longer matches; the
termination rule is the sole exception. -/
theorem C2_literal_rules_idempotent (key rep : Name)
    (hmem : (RKey.lit key, RVal.str rep) ∈ forbidden_mapping) (n : Name)
    (hmatch : ruleMatches (RKey.lit key) n = true) :
    ruleMatches (RKey.lit key) (pyReplace key rep n) = false := by
  simp only [forbidden_mapping, List.mem_cons, List.not_mem_nil, or_false,
    Prod.mk.injEq, RKey.lit.injEq, RVal.str.injEq] at hmem
  rcases hmem with ⟨h1, h2⟩ | ⟨h1, h2⟩ | ⟨h1, h2⟩ | ⟨h1, h2⟩ | ⟨h1, h2⟩ |
    ⟨h1, h2⟩ | ⟨h1, h2⟩ | ⟨h1, h2⟩ | ⟨h1, h2⟩ | ⟨h1, h2⟩ | ⟨h1, h2⟩ | ⟨h1, h2⟩ <;>
    first
      | (subst h1; subst h2;
         simp only [ruleMatches];
         exact isSubstr_pyReplace_single_false _ _ (by decide) n)
      | simp at h1

/-- C2 (witness): the `"<"` rule matches `"a<"` and no longer matches the
replaced name `"a("`. -/
theorem C2_literal_rules_idempotent_witness :
    ruleMatches (RKey.lit ['<']) (pyReplace ['<'] ['('] (strOf "a<")) = false :=
  C2_literal_rules_idempotent ['<'] ['('] (by decide) (strOf "a<") (by decide)

/-- C3: classification marks a name invalid exactly when some rule of the
mapping matches it, the returned problems contain exactly the matching keys,
and the problems are empty exactly when the name is valid. -/
theorem C3_classification_contract (n : Name) (m : MatchMapping) :
    ((is_item_invalid n m).1 = true
        ↔ ∃ k ∈ m.map Prod.fst, ruleMatches k n = true) ∧
    (∀ k : RKey, k ∈ (is_item_invalid n m).2
        ↔ (k ∈ m.map Prod.fst ∧ ruleMatches k n = true)) ∧
    ((is_item_invalid n m).2 = [] ↔ (is_item_invalid n m).1 = false) := by
  refine ⟨?_, ?_, ?_⟩
  · rw [is_item_invalid_fst]
    constructor
    · intro hne
      obtain ⟨k, hk⟩ := List.exists_mem_of_ne_nil _ hne
      exact ⟨k, (List.mem_filter.mp hk).1, (List.mem_filter.mp hk).2⟩
    · rintro ⟨k, hk, hmatch⟩ hnil
      have hmem : k ∈ List.filter (fun k => ruleMatches k n) (m.map Prod.fst) :=
        List.mem_filter.mpr ⟨hk, hmatch⟩
      rw [hnil] at hmem
      simp at hmem
  · intro k
    simp [is_item_invalid_snd, List.mem_filter]
  · rw [is_item_invalid_snd, ← Bool.not_eq_true, is_item_invalid_fst]
    simp [not_not]

/-- C4 (code bug): `char_validation` never reaches its forbidden-character
check.  The comprehension `[c in char for c in forbidden_mapping.keys()]`
evaluates `c in char` for every key, including the `Termination` matcher
instance, and `str.__contains__` then raises `TypeError` — which the
surrounding `except ValueError` does not catch.  So for every proposed
replacement string, valid or not, validation raises `TypeError` instead of
rejecting-and-re-prompting. -/
theorem C4_replacement_validation_always_raises_typeerror (char : Name) :
    char_validation forbidden_mapping char = Except.error PyError.typeError := rfl

/-- C5: two problematic entries of the same type land in the same group of
`problematic_files_types` / `problematic_directories_types` exactly when
their violated-rule sets are equal as sets, for entries whose problems were
recorded by `is_item_invalid` (which enumerates them canonically, in mapping
key order). -/
theorem C5_grouping_by_violated_set (data : List FileSystemItem)
    (e₁ e₂ : FileSystemItem) (m : MatchMapping) (n₁ n₂ : Name)
    (h₁ : e₁.problems = (is_item_invalid n₁ m).2)
    (h₂ : e₂.problems = (is_item_invalid n₂ m).2) :
    ((e₁ ∈ problematic_files data) → (e₂ ∈ problematic_files data) →
      ((∃ g ∈ problematic_files_types data, e₁ ∈ g.2 ∧ e₂ ∈ g.2) ↔
        ∀ k, k ∈ e₁.problems ↔ k ∈ e₂.problems)) ∧
    ((e₁ ∈ problematic_directories data) → (e₂ ∈ problematic_directories data) →
      ((∃ g ∈ problematic_directories_types data, e₁ ∈ g.2 ∧ e₂ ∈ g.2) ↔
        ∀ k, k ∈ e₁.problems ↔ k ∈ e₂.problems)) := by
  have main : ∀ items : List FileSystemItem, e₁ ∈ items → e₂ ∈ items →
      ((∃ g ∈ problems_types items, e₁ ∈ g.2 ∧ e₂ ∈ g.2) ↔
        ∀ k, k ∈ e₁.problems ↔ k ∈ e₂.problems) := by
    intro items hm₁ hm₂
    rw [problems_types_same_group items e₁ e₂ hm₁ hm₂]
    constructor
    · intro heq k
      rw [heq]
    · intro hk
      rw [h₁, h₂]
      apply classification_problems_ext
      intro k
      have hkk := hk k
      rw [h₁, h₂] at hkk
      exact hkk
  exact ⟨fun a b => main _ a b, fun a b => main _ a b⟩

/-- C5 (witness): the entries for `"a<>"` and `"<b>"`, which violate the same
rule combination, are grouped together. -/
theorem C5_grouping_by_violated_set_witness :
    ∃ g ∈ problematic_files_types [groupItemA, groupItemB],
      groupItemA ∈ g.2 ∧ groupItemB ∈ g.2 :=
  ((C5_grouping_by_violated_set [groupItemA, groupItemB] groupItemA groupItemB
      forbidden_mapping (strOf "a<>") (strOf "<b>") (by decide) (by decide)).1
    (by decide) (by decide)).mpr (fun _ => Iff.rfl)

/-- C6 (code bug): the renamed path depends on the iteration order of the
violated-problems set.  For the name `"a?, "` with violated set
`{"?", termination}`, applying `"?"` first yields `"a"` while applying the
termination rule first yields `"a."` — two enumerations of the same set
(witnessed by the permutation) produce different resolved paths, so the
order the Python `for problem in item.problems` loop uses (set iteration
order, which string-hash randomisation varies between runs) determines the
result. -/
theorem C6_resolution_depends_on_set_iteration_order :
    get_item_renamed_path
        { type := ItemType.file, invalid := true,
          path := [strOf "d", strOf "a?, "],
          problems := [RKey.lit ['?'], RKey.term] } forbidden_mapping
      = some [strOf "d", strOf "a"] ∧
    get_item_renamed_path
        { type := ItemType.file, invalid := true,
          path := [strOf "d", strOf "a?, "],
          problems := [RKey.term, RKey.lit ['?']] } forbidden_mapping
      = some [strOf "d", strOf "a."] ∧
    List.Perm [RKey.lit ['?'], RKey.term] [RKey.term, RKey.lit ['?']] := by
  refine ⟨by decide, by decide, List.Perm.swap _ _ _⟩

/-- C7: an entry whose invalid flag is false is returned unchanged by
`get_item_renamed_path`. -/
theorem C7_valid_entry_identity (item : FileSystemItem) (m : MatchMapping)
    (h : item.invalid = false) :
    get_item_renamed_path item m = some item.path := by
  simp [get_item_renamed_path, h]

/-- C7 (witness): `"plain.txt"` is classified valid and its path is returned
unchanged. -/
theorem C7_valid_entry_identity_witness :
    get_item_renamed_path
        (classify_entry ItemType.file [strOf "plain.txt"] forbidden_mapping)
        forbidden_mapping
      = some [strOf "plain.txt"] :=
  C7_valid_entry_identity _ _ (by decide)

/-- C8 (counterexample): the resolved path does not always keep the original
parent.  The name `","` is invalid (termination rule) and its transform
strips it to the empty string; `parent / ""` is `parent` itself in `pathlib`,
so the resolved path for `"d/,"` is `"d"`, whose parent differs from the
original parent `"d"`. -/
theorem C8_counterexample :
    (classify_entry ItemType.file [strOf "d", strOf ","] forbidden_mapping).invalid
        = true ∧
    get_item_renamed_path
        (classify_entry ItemType.file [strOf "d", strOf ","] forbidden_mapping)
        forbidden_mapping
      = some [strOf "d"] ∧
    pathParent [strOf "d"] ≠ pathParent [strOf "d", strOf ","] := by
  decide

/-- C8 (amended): for every invalid entry all of whose intermediate
transformed names are non-empty, the resolved path is exactly the original
parent directory extended by the final transformed name, and the parent of
the resolved path equals the parent of the original path. -/
theorem C8_only_last_component_changes (item : FileSystemItem)
    (m : MatchMapping) (hinv : item.invalid = true)
    (h : stepsAllNonempty m item.problems (pathName item.path) = true) :
    ∃ final, resolveNameSteps m item.problems (pathName item.path) = some final ∧
      get_item_renamed_path item m = some (pathParent item.path ++ [final]) ∧
      pathParent (pathParent item.path ++ [final]) = pathParent item.path := by
  obtain ⟨final, h1, h2⟩ := rename_fold_frame m item.problems item.path h
  refine ⟨final, h1, ?_, pathParent_snoc _ _⟩
  rw [get_item_renamed_path, hinv]
  simpa using h2

/-- C8 (witness): the invalid entry `"d/a<b"` resolves to `"d/a(b"`, keeping
the parent `"d"`. -/
theorem C8_only_last_component_changes_witness :
    ∃ final,
      resolveNameSteps forbidden_mapping
          (classify_entry ItemType.file [strOf "d", strOf "a<b"] forbidden_mapping).problems
          (pathName (classify_entry ItemType.file [strOf "d", strOf "a<b"] forbidden_mapping).path)
        = some final ∧
      get_item_renamed_path
          (classify_entry ItemType.file [strOf "d", strOf "a<b"] forbidden_mapping)
          forbidden_mapping
        = some (pathParent
            (classify_entry ItemType.file [strOf "d", strOf "a<b"] forbidden_mapping).path
              ++ [final]) ∧
      pathParent (pathParent
          (classify_entry ItemType.file [strOf "d", strOf "a<b"] forbidden_mapping).path
            ++ [final])
        = pathParent
            (classify_entry ItemType.file [strOf "d", strOf "a<b"] forbidden_mapping).path :=
  C8_only_last_component_changes _ _ (by decide) (by decide)

/-- C9: classification depends only on the item's name and the rule mapping.
`parse_item` appends one entry per call, and two calls with the same name
and mapping — under different roots, types and accumulated data — record the
same invalid flag and the same violated set. -/
theorem C9_classification_depends_only_on_name (root₁ root₂ : PyPath)
    (t₁ t₂ : ItemType) (d₁ d₂ : List FileSystemItem) (n : Name)
    (m : MatchMapping) :
    ∃ i₁ i₂ : FileSystemItem,
      parse_item root₁ n t₁ d₁ m = d₁ ++ [i₁] ∧
      parse_item root₂ n t₂ d₂ m = d₂ ++ [i₂] ∧
      i₁.invalid = i₂.invalid ∧ i₁.problems = i₂.problems :=
  ⟨_, _, rfl, rfl, rfl, rfl⟩

/-- C10: under the default rules, `U+F022` is both a literal key and one of
the termination rule's trailing characters, so every name ending in it
violates (at least) those two distinct rules and is invalid. -/
theorem C10_uf022_violates_two_rules (n : Name)
    (h : n.getLast? = some '\uf022') :
    RKey.lit ['\uf022'] ∈ (is_item_invalid n forbidden_mapping).2 ∧
    RKey.term ∈ (is_item_invalid n forbidden_mapping).2 ∧
    RKey.lit ['\uf022'] ≠ RKey.term ∧
    (is_item_invalid n forbidden_mapping).1 = true := by
  have hmem : '\uf022' ∈ n := mem_of_getLast?_eq n _ h
  have hlit : ruleMatches (RKey.lit ['\uf022']) n = true := by
    simp only [ruleMatches]
    exact (isSubstr_single_iff _ _).mpr hmem
  have hterm : ruleMatches RKey.term n = true := by
    simp [ruleMatches, Termination_matches, h, terminationChars]
  have h1 : RKey.lit ['\uf022'] ∈ (is_item_invalid n forbidden_mapping).2 := by
    rw [is_item_invalid_snd]
    exact List.mem_filter.mpr ⟨by decide, hlit⟩
  have h2 : RKey.term ∈ (is_item_invalid n forbidden_mapping).2 := by
    rw [is_item_invalid_snd]
    exact List.mem_filter.mpr ⟨by decide, hterm⟩
  refine ⟨h1, h2, by decide, ?_⟩
  rw [is_item_invalid_fst]
  intro hnil
  rw [is_item_invalid_snd, hnil] at h2
  simp at h2

/-- C10 (witness): the name `"a\uf022"` violates both the `"\uf022"` literal
rule and the termination rule. -/
theorem C10_uf022_violates_two_rules_witness :
    RKey.lit ['\uf022'] ∈ (is_item_invalid (strOf "a\uf022") forbidden_mapping).2 ∧
    RKey.term ∈ (is_item_invalid (strOf "a\uf022") forbidden_mapping).2 ∧
    RKey.lit ['\uf022'] ≠ RKey.term ∧
    (is_item_invalid (strOf "a\uf022") forbidden_mapping).1 = true :=
  C10_uf022_violates_two_rules (strOf "a\uf022") (by decide)
